import Mathlib

set_option maxHeartbeats 1000000
set_option maxRecDepth 4096

/-!
Verification of the CHIP-8 emulator GUI (`main.py`) against its specification.

The repository contains only the host GUI, `main.py`; the interpreter core it
drives (`chip8.py`, class `Chip8`) is imported but is not part of the
repository.  Consequently the core's constructor and ROM loader are modelled
from the specification (their definitions carry a `Modelled from the spec:`
doc comment), while the core's per-instruction step `emulate_cycle` and the
input handler `handle_input` are kept as explicit function parameters of the
host model, since `main.py` only ever calls them.
-/

/-- An RGB colour, as the `(r, g, b)` tuples `main.py` passes to pygame. -/
abbrev Color := Nat × Nat × Nat

/-- The colour `(255, 255, 255)` used for a lit pixel in `draw_display`. -/
def whiteColor : Color := (255, 255, 255)

/-- The colour `(0, 0, 0)` used for an unlit pixel in `draw_display`. -/
def blackColor : Color := (0, 0, 0)

/-- The pygame window surface, 640x320 pixels, modelled as a total colour
assignment; only coordinates below (640, 320) are ever painted. -/
abbrev Screen := Nat → Nat → Color

/-- The all-black screen produced by `self.screen.fill((0, 0, 0))`. -/
def blackScreen : Screen := fun _ _ => blackColor

/-- The interpreter state of the `Chip8` instance held by the GUI, with the
attribute names `main.py` accesses on it (`pc`, `stack`, `V`, `I`,
`delay_timer`, `sound_timer`, `display`, `draw_flag`) plus the memory and key
table the specification gives the core. -/
structure Chip8 where
  memory : List Nat
  V : List Nat
  I : Nat
  pc : Nat
  stack : List Nat
  delay_timer : Nat
  sound_timer : Nat
  display : List Nat
  draw_flag : Bool
  keys : List Bool
  deriving DecidableEq, Repr

/-- The display width, the `Chip8.DISPLAY_WIDTH` class attribute `main.py`
reads (the specification fixes the framebuffer at 64x32). -/
def DISPLAY_WIDTH : Nat := 64

/-- The display height, the `Chip8.DISPLAY_HEIGHT` class attribute `main.py`
reads. -/
def DISPLAY_HEIGHT : Nat := 32

/-- Modelled from the spec: the built-in fontset, 16 glyphs of 5 bytes each
(digits 0-F), that the missing `chip8.py` loads at addresses 0x000-0x04F at
initialization.  The canonical CHIP-8 glyph bytes are used. -/
def fontset : List Nat :=
  [0xF0, 0x90, 0x90, 0x90, 0xF0,
   0x20, 0x60, 0x20, 0x20, 0x70,
   0xF0, 0x10, 0xF0, 0x80, 0xF0,
   0xF0, 0x10, 0xF0, 0x10, 0xF0,
   0x90, 0x90, 0xF0, 0x10, 0x10,
   0xF0, 0x80, 0xF0, 0x10, 0xF0,
   0xF0, 0x80, 0xF0, 0x90, 0xF0,
   0xF0, 0x10, 0x20, 0x40, 0x40,
   0xF0, 0x90, 0xF0, 0x90, 0xF0,
   0xF0, 0x90, 0xF0, 0x10, 0xF0,
   0xF0, 0x90, 0xF0, 0x90, 0x90,
   0xE0, 0x90, 0xE0, 0x90, 0xE0,
   0xF0, 0x80, 0x80, 0x80, 0xF0,
   0xE0, 0x90, 0x90, 0x90, 0xE0,
   0xF0, 0x80, 0xF0, 0x80, 0xF0,
   0xF0, 0x80, 0xF0, 0x80, 0x80]

/-- Modelled from the spec: the `Chip8()` constructor of the missing
`chip8.py`.  Per the specification's lifecycle section, every field starts at
its initial value: stack empty, V = 0, I = 0, PC = 0x200, timers = 0,
framebuffer = 0, draw-flag = true, the fontset resident at 0x000-0x04F of the
4096-byte memory, all 16 keys released. -/
def Chip8.init : Chip8 :=
  { memory := fontset ++ List.replicate (4096 - 80) 0
  , V := List.replicate 16 0
  , I := 0
  , pc := 0x200
  , stack := []
  , delay_timer := 0
  , sound_timer := 0
  , display := List.replicate (DISPLAY_WIDTH * DISPLAY_HEIGHT) 0
  , draw_flag := true
  , keys := List.replicate 16 false }

/-- Writing a byte sequence into memory starting at `addr`, one
`memory[addr + i] = bytes[i]` assignment at a time. -/
def copyAt (m : List Nat) (addr : Nat) : List Nat → List Nat
  | [] => m
  | b :: bs => copyAt (m.set addr b) (addr + 1) bs

/-- The load-time error of the core: the ROM does not fit the program area. -/
inductive LoadError
  | romTooLarge
  deriving DecidableEq, Repr

/-- The step-time errors the specification allows the core to raise. -/
inductive EngineError
  | illegalOpcode
  | stackOverflowFault
  | stackUnderflowFault
  | fetchOutOfRange
  deriving DecidableEq, Repr

/-- Modelled from the spec: `Chip8.load_rom` of the missing `chip8.py`.  Per
the specification's ROM-loader contract it fails with `RomTooLarge` when the
payload exceeds 4096 - 512 = 3584 bytes and otherwise copies the bytes into
memory starting at 0x200; the core-level load is atomic. -/
def Chip8.load_rom (c : Chip8) (bytes : List Nat) : Except LoadError Chip8 :=
  if bytes.length > 4096 - 512 then
    .error .romTooLarge
  else
    .ok { c with memory := copyAt c.memory 0x200 bytes }

/-!  ## The rendering routine `draw_display` (main.py lines 88-94)  -/

/-- The colour chosen for cell `(x, y)`:
`(255,255,255) if self.chip8.display[y * 64 + x] == 1 else (0,0,0)`. -/
def pixelColor (d : List Nat) (x y : Nat) : Color :=
  if d.getD (y * 64 + x) 0 == 1 then whiteColor else blackColor

/-- The slice assignment
`pixel_array[x*10:(x+1)*10, y*10:(y+1)*10] = color`: every screen point of
the 10x10 block of cell `(x, y)` takes colour `c`. -/
def setBlock (s : Screen) (x y : Nat) (c : Color) : Screen :=
  fun sx sy =>
    if x * 10 ≤ sx ∧ sx < (x + 1) * 10 ∧ y * 10 ≤ sy ∧ sy < (y + 1) * 10 then c
    else s sx sy

/-- The inner `for x in range(n)` loop of `draw_display` for row `y`:
blocks `0, 1, ..., n-1` painted in ascending order. -/
def drawCols (d : List Nat) (y : Nat) (s : Screen) : Nat → Screen
  | 0 => s
  | n + 1 => setBlock (drawCols d y s n) n y (pixelColor d n y)

/-- The outer `for y in range(m)` loop of `draw_display`:
rows `0, 1, ..., m-1` painted in ascending order, 64 columns each. -/
def drawRows (d : List Nat) (s : Screen) : Nat → Screen
  | 0 => s
  | m + 1 => drawCols d m (drawRows d s m) 64

/-- `EmulatorGUI.draw_display`: paints every cell of the 64x32 framebuffer as
a 10x10 block on the screen. -/
def drawDisplay (d : List Nat) (s : Screen) : Screen :=
  drawRows d s 32

/-!  ## The host state and its operations (main.py, class EmulatorGUI)  -/

/-- The observable host-level calls an operation makes, used to state how many
interpreter cycles, timer ticks, input polls and display updates a piece of
host code performs. -/
inductive HostCall
  | handleInput
  | emulateCycle
  | tickTimers
  | screenFill
  | drawDisplayCall
  | displayFlip
  | clockTick60
  | quitEmulator
  | sleep16ms
  | showErrorDialog
  | setStatus
  deriving DecidableEq, Repr

/-- The mutable state of `EmulatorGUI` that the claims are about: the held
`Chip8` instance, the control flags set in `__init__`, and the pygame
screen. -/
structure HostState where
  chip8 : Chip8
  running : Bool
  paused : Bool
  rom_loaded : Bool
  screen : Screen

/-- The host state right after `EmulatorGUI.__init__`: a fresh `Chip8`,
`running = True`, `paused = False`, `rom_loaded = False`, black screen. -/
def initialHost : HostState :=
  { chip8 := Chip8.init
  , running := true
  , paused := false
  , rom_loaded := false
  , screen := blackScreen }

/-- `EmulatorGUI.load_rom` (main.py lines 71-86).  `rom = none` models a
cancelled file dialog; `rom = some bytes` models a chosen file with those
contents.  The body first replaces `self.chip8` by a fresh `Chip8()`, then
calls the core loader; on success it sets `rom_loaded`/`paused` and the
status label, on an exception it shows an error dialog — but the fresh
`Chip8` replacement has already happened. -/
def hostLoadRom (rom : Option (List Nat)) (st : HostState) :
    HostState × List HostCall :=
  match rom with
  | none => (st, [])
  | some bytes =>
    match Chip8.init.load_rom bytes with
    | .ok c =>
      ({ st with chip8 := c, rom_loaded := true, paused := false },
       [.setStatus])
    | .error _ =>
      ({ st with chip8 := Chip8.init }, [.showErrorDialog])

/-- `EmulatorGUI.reset` (main.py lines 132-141): when a ROM is loaded, write
the initial values back into `pc`, `stack`, `V`, `I`, both timers, `display`
and `draw_flag` of the held `Chip8`; otherwise do nothing. -/
def hostReset (st : HostState) : HostState :=
  if st.rom_loaded then
    { st with chip8 :=
      { st.chip8 with
          pc := 0x200
        , stack := []
        , V := List.replicate 16 0
        , I := 0
        , delay_timer := 0
        , sound_timer := 0
        , display := List.replicate (DISPLAY_WIDTH * DISPLAY_HEIGHT) 0
        , draw_flag := true } }
  else st

/-- `EmulatorGUI.toggle_pause` (main.py lines 127-130). -/
def togglePause (st : HostState) : HostState :=
  { st with paused := !st.paused }

/-- `EmulatorGUI.quit_emulator` (main.py lines 163-167): stops the loops. -/
def quitEmulatorOp (st : HostState) : HostState :=
  { st with running := false }

/-- The host-side operations of `EmulatorGUI` reachable from the GUI (menu
commands, buttons, and the screen repaint), other than the emulation loop
itself. -/
inductive HostOp
  | loadRomOp (rom : Option (List Nat))
  | resetOp
  | togglePauseOp
  | drawDisplayOp
  | showControlsOp
  | showAboutOp
  | quitOp

/-- The effect of each host-side operation on the host state. -/
def applyHostOp : HostOp → HostState → HostState
  | .loadRomOp rom, st => (hostLoadRom rom st).1
  | .resetOp, st => hostReset st
  | .togglePauseOp, st => togglePause st
  | .drawDisplayOp, st => { st with screen := drawDisplay st.chip8.display st.screen }
  | .showControlsOp, st => st
  | .showAboutOp, st => st
  | .quitOp, st => quitEmulatorOp st

/-!  ## The emulation loop (main.py lines 96-125)  -/

/-- A pygame event as the loop distinguishes them: `QUIT` or anything else. -/
inductive PgEvent
  | quit
  | other
  deriving DecidableEq, Repr

/-- The event loop of the running branch: for each event, return early on
`QUIT`, otherwise call `self.chip8.handle_input()`.  Returns the updated
`Chip8`, the trace of calls made, and whether `QUIT` was hit. -/
def processEvents (hi : Chip8 → Chip8) :
    List PgEvent → Chip8 → Chip8 × List HostCall × Bool
  | [], c => (c, [], false)
  | .quit :: _, c => (c, [], true)
  | .other :: es, c =>
    let r := processEvents hi es (hi c)
    (r.1, .handleInput :: r.2.1, r.2.2)

/-- Whether the event list contains a `QUIT` event before its end, as the
event loop of the paused/idle branch observes it. -/
def hasQuit : List PgEvent → Bool
  | [] => false
  | .quit :: _ => true
  | .other :: es => hasQuit es

/-- `for _ in range(n): self.chip8.emulate_cycle()` with a fallible core
step: stops at the first raised engine error, recording one `emulateCycle`
call per attempted cycle. -/
def stepN (step : Chip8 → Except EngineError Chip8) :
    Nat → Chip8 → Except EngineError Chip8 × List HostCall
  | 0, c => (.ok c, [])
  | n + 1, c =>
    match step c with
    | .error e => (.error e, [.emulateCycle])
    | .ok c2 =>
      let r := stepN step n c2
      (r.1, .emulateCycle :: r.2)

/-- `n` successive applications of an infallible core step. -/
def iterateStep (f : Chip8 → Chip8) : Nat → Chip8 → Chip8
  | 0, c => c
  | n + 1, c => iterateStep f n (f c)

/-- The outcome of one iteration of `emulation_loop`: the resulting host
state (or the engine error that escaped uncaught), the trace of host calls
made, and whether the iteration took the early `return` after `QUIT`. -/
structure LoopResult where
  out : Except EngineError HostState
  trace : List HostCall
  didQuit : Bool

/-- One iteration of the `while self.running` body of
`EmulatorGUI.emulation_loop` (main.py lines 96-125), parametrised by the
core's `handle_input` and `emulate_cycle` (which live in the missing
`chip8.py`) and by the pygame events pending this iteration.  Note that the
body contains no try/except: a core error propagates out. -/
def loopIter (hi : Chip8 → Chip8) (step : Chip8 → Except EngineError Chip8)
    (events : List PgEvent) (st : HostState) : LoopResult :=
  if st.rom_loaded && !st.paused then
    let p := processEvents hi events st.chip8
    if p.2.2 then
      { out := .ok (quitEmulatorOp { st with chip8 := p.1 })
      , trace := p.2.1 ++ [.quitEmulator]
      , didQuit := true }
    else
      match stepN step 10 p.1 with
      | (.error e, tr) =>
        { out := .error e, trace := p.2.1 ++ tr, didQuit := false }
      | (.ok c2, tr) =>
        if c2.draw_flag then
          { out := .ok { st with
              chip8 := { c2 with draw_flag := false }
            , screen := drawDisplay c2.display blackScreen }
          , trace := p.2.1 ++ tr ++
              [.screenFill, .drawDisplayCall, .displayFlip, .clockTick60]
          , didQuit := false }
        else
          { out := .ok { st with chip8 := c2 }
          , trace := p.2.1 ++ tr ++ [.clockTick60]
          , didQuit := false }
  else
    if hasQuit events then
      { out := .ok (quitEmulatorOp st), trace := [.quitEmulator], didQuit := true }
    else
      { out := .ok st, trace := [.sleep16ms], didQuit := false }

/-!  ## Concrete fixtures used by witnesses and counterexamples  -/

/-- A host state with a ROM flagged loaded and an otherwise fresh core. -/
def runSt : HostState := { initialHost with rom_loaded := true }

/-- A running host state whose core has delay timer 5. -/
def runSt5 : HostState :=
  { initialHost with
      rom_loaded := true,
      chip8 := { Chip8.init with delay_timer := 5 } }

/-- The host state after successfully loading the one-byte ROM `[0xAA]`. -/
def loadedSt : HostState := (hostLoadRom (some [0xAA]) initialHost).1

/-- The host state after then attempting to load a 3585-byte ROM (too large)
from `loadedSt`. -/
def failedSt : HostState := (hostLoadRom (some (List.replicate 3585 1)) loadedSt).1

/-- A loaded host state whose core program counter has advanced to 0x210. -/
def resetProbeSt : HostState :=
  { initialHost with
      rom_loaded := true,
      chip8 := { Chip8.init with pc := 0x210 } }

/-- A 64x32 framebuffer with exactly pixel (x, y) = (2, 1) lit. -/
def sampleDisplay : List Nat := (List.replicate 2048 0).set 66 1

/-!  ## Helper lemmas  -/

theorem drawCols_apply (d : List Nat) (y : Nat) (s : Screen) (n sx sy : Nat) :
    drawCols d y s n sx sy =
      if sx < n * 10 ∧ y * 10 ≤ sy ∧ sy < (y + 1) * 10 then
        pixelColor d (sx / 10) y
      else s sx sy := by
  induction n with
  | zero =>
    simp [drawCols]
  | succ n ih =>
    show setBlock (drawCols d y s n) n y (pixelColor d n y) sx sy = _
    simp only [setBlock]
    by_cases hb : n * 10 ≤ sx ∧ sx < (n + 1) * 10 ∧ y * 10 ≤ sy ∧ sy < (y + 1) * 10
    · have hdiv : sx / 10 = n := by omega
      have hc : sx < (n + 1) * 10 ∧ y * 10 ≤ sy ∧ sy < (y + 1) * 10 := by omega
      simp only [if_pos hb, if_pos hc, hdiv]
    · rw [if_neg hb, ih]
      by_cases hrow : y * 10 ≤ sy ∧ sy < (y + 1) * 10
      · by_cases hx : sx < n * 10
        · have h1 : sx < n * 10 ∧ y * 10 ≤ sy ∧ sy < (y + 1) * 10 := ⟨hx, hrow⟩
          have h2 : sx < (n + 1) * 10 ∧ y * 10 ≤ sy ∧ sy < (y + 1) * 10 :=
            ⟨by omega, hrow⟩
          rw [if_pos h1, if_pos h2]
        · have h1 : ¬(sx < n * 10 ∧ y * 10 ≤ sy ∧ sy < (y + 1) * 10) := by tauto
          have h2 : ¬(sx < (n + 1) * 10 ∧ y * 10 ≤ sy ∧ sy < (y + 1) * 10) := by
            intro hcon
            exact hb ⟨by omega, hcon⟩
          rw [if_neg h1, if_neg h2]
      · have h1 : ¬(sx < n * 10 ∧ y * 10 ≤ sy ∧ sy < (y + 1) * 10) := by tauto
        have h2 : ¬(sx < (n + 1) * 10 ∧ y * 10 ≤ sy ∧ sy < (y + 1) * 10) := by tauto
        rw [if_neg h1, if_neg h2]

theorem drawRows_apply (d : List Nat) (s : Screen) (m sx sy : Nat) :
    drawRows d s m sx sy =
      if sx < 640 ∧ sy < m * 10 then pixelColor d (sx / 10) (sy / 10)
      else s sx sy := by
  induction m with
  | zero =>
    simp [drawRows]
  | succ m ih =>
    show drawCols d m (drawRows d s m) 64 sx sy = _
    rw [drawCols_apply]
    by_cases hband : m * 10 ≤ sy ∧ sy < (m + 1) * 10
    · by_cases hx : sx < 640
      · have h1 : sx < 64 * 10 ∧ m * 10 ≤ sy ∧ sy < (m + 1) * 10 := ⟨by omega, hband⟩
        have h2 : sx < 640 ∧ sy < (m + 1) * 10 := ⟨hx, hband.2⟩
        have hdiv : sy / 10 = m := by omega
        rw [if_pos h1, if_pos h2, hdiv]
      · have h1 : ¬(sx < 64 * 10 ∧ m * 10 ≤ sy ∧ sy < (m + 1) * 10) := by
          intro hcon; exact hx (by omega)
        have h2 : ¬(sx < 640 ∧ sy < (m + 1) * 10) := by tauto
        rw [if_neg h1, if_neg h2, ih]
        have h3 : ¬(sx < 640 ∧ sy < m * 10) := by tauto
        rw [if_neg h3]
    · have h1 : ¬(sx < 64 * 10 ∧ m * 10 ≤ sy ∧ sy < (m + 1) * 10) := by tauto
      rw [if_neg h1, ih]
      by_cases h2 : sx < 640 ∧ sy < m * 10
      · have h3 : sx < 640 ∧ sy < (m + 1) * 10 := ⟨h2.1, by omega⟩
        rw [if_pos h2, if_pos h3]
      · have h3 : ¬(sx < 640 ∧ sy < (m + 1) * 10) := by
          intro hcon
          exact h2 ⟨hcon.1, by omega⟩
        rw [if_neg h2, if_neg h3]

theorem copyAt_length (bs : List Nat) (m : List Nat) (a : Nat) :
    (copyAt m a bs).length = m.length := by
  induction bs generalizing m a with
  | nil => rfl
  | cons b bs ih => simpa [copyAt] using ih (m.set a b) (a + 1)

theorem copyAt_getD_lt (bs : List Nat) (m : List Nat) (a j : Nat) (hj : j < a) :
    (copyAt m a bs).getD j 0 = m.getD j 0 := by
  induction bs generalizing m a with
  | nil => rfl
  | cons b bs ih =>
    show (copyAt (m.set a b) (a + 1) bs).getD j 0 = m.getD j 0
    rw [ih (m.set a b) (a + 1) (by omega)]
    by_cases hm : j < m.length
    · rw [List.getD_eq_getElem _ _ (by simpa using hm),
          List.getD_eq_getElem _ _ hm,
          List.getElem_set_ne (by omega)]
    · rw [List.getD_eq_default _ _ (by simpa using hm),
          List.getD_eq_default _ _ (by omega)]

theorem copyAt_getD (bs : List Nat) (m : List Nat) (a i : Nat)
    (hi : i < bs.length) (hlen : a + bs.length ≤ m.length) :
    (copyAt m a bs).getD (a + i) 0 = bs.getD i 0 := by
  induction bs generalizing m a i with
  | nil => simp at hi
  | cons b bs ih =>
    simp only [List.length_cons] at hi hlen
    simp only [copyAt]
    cases i with
    | zero =>
      show (copyAt (m.set a b) (a + 1) bs).getD a 0 = b
      rw [copyAt_getD_lt bs (m.set a b) (a + 1) a (by omega)]
      have ha : a < m.length := by omega
      rw [List.getD_eq_getElem _ _ (by simpa using ha)]
      simp [List.getElem_set_self]
    | succ i =>
      show (copyAt (m.set a b) (a + 1) bs).getD (a + (i + 1)) 0 = bs.getD i 0
      have hstep : a + (i + 1) = (a + 1) + i := by omega
      rw [hstep, ih (m.set a b) (a + 1) i (by omega)
        (by simp [List.length_set]; omega)]

theorem fontset_length : fontset.length = 80 := by decide

theorem chip8_init_memory_length : Chip8.init.memory.length = 4096 := by
  show (fontset ++ List.replicate (4096 - 80) 0).length = 4096
  rw [List.length_append, fontset_length, List.length_replicate]

theorem chip8_init_memory_getD (j : Nat) (h80 : 80 ≤ j) :
    Chip8.init.memory.getD j 0 = 0 := by
  show (fontset ++ List.replicate (4096 - 80) 0).getD j 0 = 0
  rw [List.getD, List.get?_eq_getElem?,
    List.getElem?_append_right (by rw [fontset_length]; omega),
    List.getElem?_replicate]
  split <;> rfl

theorem processEvents_no_quit (hi : Chip8 → Chip8) (events : List PgEvent)
    (c : Chip8) (h : hasQuit events = false) :
    (processEvents hi events c).2.2 = false := by
  induction events generalizing c with
  | nil => rfl
  | cons e es ih =>
    cases e with
    | quit => simp [hasQuit] at h
    | other =>
      simp only [hasQuit] at h
      simpa [processEvents] using ih (hi c) h

theorem processEvents_trace (hi : Chip8 → Chip8) (events : List PgEvent)
    (c : Chip8) :
    ∃ k, (processEvents hi events c).2.1 = List.replicate k HostCall.handleInput := by
  induction events generalizing c with
  | nil => exact ⟨0, rfl⟩
  | cons e es ih =>
    cases e with
    | quit => exact ⟨0, rfl⟩
    | other =>
      obtain ⟨k, hk⟩ := ih (hi c)
      exact ⟨k + 1, by simp [processEvents, hk, List.replicate_succ]⟩

theorem stepN_total (f : Chip8 → Chip8) (n : Nat) (c : Chip8) :
    stepN (fun c => .ok (f c)) n c =
      (.ok (iterateStep f n c), List.replicate n HostCall.emulateCycle) := by
  induction n generalizing c with
  | zero => rfl
  | succ n ih => simp [stepN, iterateStep, ih, List.replicate_succ]

theorem stepN_trace_cycles (step : Chip8 → Except EngineError Chip8) (n : Nat)
    (c : Chip8) (a : HostCall) (ha : a ≠ HostCall.emulateCycle) :
    ((stepN step n c).2).count a = 0 := by
  induction n generalizing c with
  | zero => rfl
  | succ n ih =>
    show ((match step c with
      | .error e => ((.error e : Except EngineError Chip8), [HostCall.emulateCycle])
      | .ok c2 =>
        let r := stepN step n c2
        (r.1, HostCall.emulateCycle :: r.2)).2).count a = 0
    cases h : step c with
    | error e => simp [List.count_cons, Ne.symm ha]
    | ok c2 => simp [List.count_cons, Ne.symm ha, ih c2]

/-!  ## Claims  -/

/-- Claim C7: the framebuffer is addressed row-major with index y*64 + x:
for x < 64, y < 32, `draw_display` paints the 10x10 screen block with
top-left corner (10x, 10y) white exactly when `display[y*64 + x] == 1`, and
black otherwise. -/
theorem c7_draw_display_row_major (d : List Nat) (s : Screen) (x y dx dy : Nat)
    (hd : d.length = 2048) (hx : x < 64) (hy : y < 32)
    (hdx : dx < 10) (hdy : dy < 10) :
    (drawDisplay d s (x * 10 + dx) (y * 10 + dy) = whiteColor ↔
      d.getD (y * 64 + x) 0 = 1) ∧
    (drawDisplay d s (x * 10 + dx) (y * 10 + dy) = blackColor ↔
      ¬ d.getD (y * 64 + x) 0 = 1) := by
  have happ := drawRows_apply d s 32 (x * 10 + dx) (y * 10 + dy)
  have hc : x * 10 + dx < 640 ∧ y * 10 + dy < 32 * 10 := ⟨by omega, by omega⟩
  have hdx10 : (x * 10 + dx) / 10 = x := by omega
  have hdy10 : (y * 10 + dy) / 10 = y := by omega
  rw [drawDisplay, happ, if_pos hc, hdx10, hdy10, pixelColor]
  by_cases h1 : d.getD (y * 64 + x) 0 = 1
  · rw [if_pos (by simp only [beq_iff_eq]; exact h1)]
    exact ⟨⟨fun _ => h1, fun _ => rfl⟩,
      ⟨fun hw => absurd hw (by decide), fun hn => absurd h1 hn⟩⟩
  · rw [if_neg (by simp only [beq_iff_eq]; exact h1)]
    exact ⟨⟨fun hb => absurd hb (by decide), fun he => absurd he h1⟩,
      ⟨fun _ => h1, fun _ => rfl⟩⟩

theorem c7_witness :
    (drawDisplay sampleDisplay blackScreen (2 * 10 + 3) (1 * 10 + 4) = whiteColor ↔
      sampleDisplay.getD (1 * 64 + 2) 0 = 1) ∧
    (drawDisplay sampleDisplay blackScreen (2 * 10 + 3) (1 * 10 + 4) = blackColor ↔
      ¬ sampleDisplay.getD (1 * 64 + 2) 0 = 1) :=
  c7_draw_display_row_major sampleDisplay blackScreen 2 1 3 4
    (by simp only [sampleDisplay]; rw [List.length_set, List.length_replicate])
    (by decide) (by decide) (by decide) (by decide)

/-- Claim C5: loading a ROM (at most 3584 bytes) resets every interpreter
field to its initial value — stack empty, V registers 0, I = 0, PC = 0x200,
timers 0, all 2048 framebuffer pixels 0, draw-flag true — and the program
bytes end up in memory from 0x200 on. -/
theorem c5_load_resets_everything (bytes : List Nat) (st : HostState)
    (h : bytes.length ≤ 3584) :
    (hostLoadRom (some bytes) st).1.chip8.stack = [] ∧
    (hostLoadRom (some bytes) st).1.chip8.V = List.replicate 16 0 ∧
    (hostLoadRom (some bytes) st).1.chip8.I = 0 ∧
    (hostLoadRom (some bytes) st).1.chip8.pc = 0x200 ∧
    (hostLoadRom (some bytes) st).1.chip8.delay_timer = 0 ∧
    (hostLoadRom (some bytes) st).1.chip8.sound_timer = 0 ∧
    (hostLoadRom (some bytes) st).1.chip8.display = List.replicate 2048 0 ∧
    (hostLoadRom (some bytes) st).1.chip8.draw_flag = true ∧
    ∀ i, i < bytes.length →
      (hostLoadRom (some bytes) st).1.chip8.memory.getD (0x200 + i) 0
        = bytes.getD i 0 := by
  have hok : Chip8.init.load_rom bytes =
      .ok { Chip8.init with memory := copyAt Chip8.init.memory 0x200 bytes } := by
    rw [Chip8.load_rom, if_neg (by omega)]
  simp only [hostLoadRom, hok]
  refine ⟨rfl, rfl, rfl, rfl, rfl, rfl, rfl, rfl, ?_⟩
  intro i hi
  exact copyAt_getD bytes Chip8.init.memory 0x200 i hi
    (by rw [chip8_init_memory_length]; omega)

theorem c5_witness :
    (hostLoadRom (some [0xA2, 0xF0]) initialHost).1.chip8.stack = [] ∧
    (hostLoadRom (some [0xA2, 0xF0]) initialHost).1.chip8.V = List.replicate 16 0 ∧
    (hostLoadRom (some [0xA2, 0xF0]) initialHost).1.chip8.I = 0 ∧
    (hostLoadRom (some [0xA2, 0xF0]) initialHost).1.chip8.pc = 0x200 ∧
    (hostLoadRom (some [0xA2, 0xF0]) initialHost).1.chip8.delay_timer = 0 ∧
    (hostLoadRom (some [0xA2, 0xF0]) initialHost).1.chip8.sound_timer = 0 ∧
    (hostLoadRom (some [0xA2, 0xF0]) initialHost).1.chip8.display = List.replicate 2048 0 ∧
    (hostLoadRom (some [0xA2, 0xF0]) initialHost).1.chip8.draw_flag = true ∧
    ∀ i, i < [0xA2, 0xF0].length →
      (hostLoadRom (some [0xA2, 0xF0]) initialHost).1.chip8.memory.getD (0x200 + i) 0
        = [0xA2, 0xF0].getD i 0 :=
  c5_load_resets_everything [0xA2, 0xF0] initialHost (by decide)

/-- Claim C10: the host Reset (with a ROM loaded) restores stack, V, I, PC,
timers, framebuffer and draw-flag to their initial values but leaves the
memory array (ROM image and fontset) and the key table unchanged. -/
theorem c10_reset_keeps_memory (st : HostState) (h : st.rom_loaded = true) :
    (hostReset st).chip8.memory = st.chip8.memory ∧
    (hostReset st).chip8.keys = st.chip8.keys ∧
    (hostReset st).chip8.pc = 0x200 ∧
    (hostReset st).chip8.stack = [] ∧
    (hostReset st).chip8.V = List.replicate 16 0 ∧
    (hostReset st).chip8.I = 0 ∧
    (hostReset st).chip8.delay_timer = 0 ∧
    (hostReset st).chip8.sound_timer = 0 ∧
    (hostReset st).chip8.display = List.replicate 2048 0 ∧
    (hostReset st).chip8.draw_flag = true := by
  rw [hostReset, if_pos h]
  exact ⟨rfl, rfl, rfl, rfl, rfl, rfl, rfl, rfl, rfl, rfl⟩

theorem c10_witness :
    (hostReset resetProbeSt).chip8.memory = resetProbeSt.chip8.memory ∧
    (hostReset resetProbeSt).chip8.keys = resetProbeSt.chip8.keys ∧
    (hostReset resetProbeSt).chip8.pc = 0x200 ∧
    (hostReset resetProbeSt).chip8.stack = [] ∧
    (hostReset resetProbeSt).chip8.V = List.replicate 16 0 ∧
    (hostReset resetProbeSt).chip8.I = 0 ∧
    (hostReset resetProbeSt).chip8.delay_timer = 0 ∧
    (hostReset resetProbeSt).chip8.sound_timer = 0 ∧
    (hostReset resetProbeSt).chip8.display = List.replicate 2048 0 ∧
    (hostReset resetProbeSt).chip8.draw_flag = true :=
  c10_reset_keeps_memory resetProbeSt rfl

/-- Claim C1 counterexample: after a failed (oversized) load attempt from a
state holding the ROM byte 0xAA at 0x200, the interpreter observable to the
caller no longer holds that byte — the failed load did change state. -/
theorem c1_counterexample :
    Chip8.init.load_rom (List.replicate 3585 1) = .error .romTooLarge ∧
    loadedSt.chip8.memory.getD 0x200 0 = 0xAA ∧
    failedSt.chip8.memory.getD 0x200 0 = 0 := by
  have herr : Chip8.init.load_rom (List.replicate 3585 1) = .error .romTooLarge := by
    rw [Chip8.load_rom, if_pos (by rw [List.length_replicate]; omega)]
  refine ⟨herr, ?_, ?_⟩
  · unfold loadedSt
    have hok : Chip8.init.load_rom [0xAA] =
        .ok { Chip8.init with memory := copyAt Chip8.init.memory 0x200 [0xAA] } := by
      rw [Chip8.load_rom, if_neg (by decide)]
    simp only [hostLoadRom, hok]
    have hcp := copyAt_getD [0xAA] Chip8.init.memory 0x200 0 (by decide)
      (by simp [chip8_init_memory_length])
    simpa using hcp
  · unfold failedSt
    simp only [hostLoadRom, herr]
    exact chip8_init_memory_getD 0x200 (by omega)

/-- Claim C1 (amended): a failed ROM load leaves the interpreter freshly
reset — equal to a newly constructed `Chip8` — rather than preserving the
prior state, because the host replaces the interpreter before attempting the
load; the `rom_loaded`/`paused` flags and the screen keep their prior
values, and an error dialog is shown. -/
theorem c1_failed_load_resets (bytes : List Nat) (st : HostState)
    (h : bytes.length > 3584) :
    (hostLoadRom (some bytes) st).1.chip8 = Chip8.init ∧
    (hostLoadRom (some bytes) st).1.rom_loaded = st.rom_loaded ∧
    (hostLoadRom (some bytes) st).1.paused = st.paused ∧
    (hostLoadRom (some bytes) st).1.screen = st.screen ∧
    (hostLoadRom (some bytes) st).2 = [HostCall.showErrorDialog] := by
  have herr : Chip8.init.load_rom bytes = .error .romTooLarge := by
    rw [Chip8.load_rom, if_pos (by omega)]
  simp only [hostLoadRom, herr]
  exact ⟨trivial, trivial, trivial, trivial, trivial⟩

theorem c1_witness :
    (hostLoadRom (some (List.replicate 3585 1)) loadedSt).1.chip8 = Chip8.init ∧
    (hostLoadRom (some (List.replicate 3585 1)) loadedSt).1.rom_loaded
      = loadedSt.rom_loaded ∧
    (hostLoadRom (some (List.replicate 3585 1)) loadedSt).1.paused
      = loadedSt.paused ∧
    (hostLoadRom (some (List.replicate 3585 1)) loadedSt).1.screen
      = loadedSt.screen ∧
    (hostLoadRom (some (List.replicate 3585 1)) loadedSt).2
      = [HostCall.showErrorDialog] :=
  c1_failed_load_resets (List.replicate 3585 1) loadedSt
    (by rw [List.length_replicate]; omega)

theorem count_replicate_of_ne (a b : HostCall) (k : Nat) (h : ¬ b = a) :
    (List.replicate k b).count a = 0 := by
  rw [List.count_replicate, if_neg (by simpa using h)]

theorem loopIter_run (hi f : Chip8 → Chip8) (events : List PgEvent)
    (st : HostState) (hrom : st.rom_loaded = true) (hp : st.paused = false)
    (hq : hasQuit events = false) :
    loopIter hi (fun c => .ok (f c)) events st =
      if (iterateStep f 10 (processEvents hi events st.chip8).1).draw_flag then
        { out := .ok { st with
            chip8 := { iterateStep f 10 (processEvents hi events st.chip8).1 with
              draw_flag := false }
          , screen := drawDisplay
              (iterateStep f 10 (processEvents hi events st.chip8).1).display
              blackScreen }
        , trace := (processEvents hi events st.chip8).2.1
            ++ List.replicate 10 HostCall.emulateCycle
            ++ [HostCall.screenFill, HostCall.drawDisplayCall,
                HostCall.displayFlip, HostCall.clockTick60]
        , didQuit := false }
      else
        { out := .ok { st with
            chip8 := iterateStep f 10 (processEvents hi events st.chip8).1 }
        , trace := (processEvents hi events st.chip8).2.1
            ++ List.replicate 10 HostCall.emulateCycle ++ [HostCall.clockTick60]
        , didQuit := false } := by
  have hnq := processEvents_no_quit hi events st.chip8 hq
  simp only [loopIter, hrom, hp, Bool.not_false, Bool.and_true, eq_self_iff_true,
    if_true, hnq, Bool.false_eq_true, if_false, stepN_total]

/-- Claim C3 counterexample: a concrete running iteration of the emulation
loop makes no timer-tick host call at all (the claim says exactly one per
iteration), and the delay timer, 5 beforehand, is still 5 afterwards under a
core step that does not itself touch it. -/
theorem c3_counterexample :
    (loopIter (fun c => c) (fun c => .ok c) [] runSt5).trace.count
      HostCall.tickTimers = 0 ∧
    Except.map (fun s => s.chip8.delay_timer)
      (loopIter (fun c => c) (fun c => .ok c) [] runSt5).out = .ok 5 := by
  exact ⟨rfl, rfl⟩

/-- Claim C3 (amended): the host never invokes a timer-tick operation from
the emulation loop: whatever the pending events, the core step and input
handler, and the host state, the trace of an iteration contains zero
`tickTimers` calls — the only core calls the loop makes are `handle_input`
and `emulate_cycle` (10 of the latter per running frame). -/
theorem c3_loop_never_ticks_timers (hi : Chip8 → Chip8)
    (step : Chip8 → Except EngineError Chip8)
    (events : List PgEvent) (st : HostState) :
    (loopIter hi step events st).trace.count HostCall.tickTimers = 0 := by
  obtain ⟨k, hk⟩ := processEvents_trace hi events st.chip8
  have hstep := stepN_trace_cycles step 10 (processEvents hi events st.chip8).1
    HostCall.tickTimers (by decide)
  simp only [loopIter]
  split
  · split
    · dsimp only
      rw [List.count_append, hk, count_replicate_of_ne _ _ k (by decide)]
      rfl
    · split
      · next e tr heq =>
        dsimp only
        rw [heq] at hstep
        have htr : List.count HostCall.tickTimers tr = 0 := hstep
        rw [List.count_append, hk, count_replicate_of_ne _ _ k (by decide), htr]
      · next c2 tr heq =>
        rw [heq] at hstep
        have htr : List.count HostCall.tickTimers tr = 0 := hstep
        split
        · dsimp only
          rw [List.count_append, List.count_append, hk,
            count_replicate_of_ne _ _ k (by decide), htr]
          rfl
        · dsimp only
          rw [List.count_append, List.count_append, hk,
            count_replicate_of_ne _ _ k (by decide), htr]
          rfl
  · split
    · rfl
    · rfl

/-- Claim C4: in every iteration of the emulation loop with a ROM loaded,
not paused, and no quit event, the host executes exactly 10 interpreter
cycles, all of them before the display update: the trace splits as
event-handling prefix (with no cycles and no display flip), then exactly 10
`emulate_cycle` calls, then the display/clock tail (with no cycles). -/
theorem c4_ten_cycles_before_display (hi f : Chip8 → Chip8)
    (events : List PgEvent) (st : HostState)
    (hrom : st.rom_loaded = true) (hp : st.paused = false)
    (hq : hasQuit events = false) :
    ∃ pre post,
      (loopIter hi (fun c => .ok (f c)) events st).trace
        = pre ++ List.replicate 10 HostCall.emulateCycle ++ post ∧
      pre.count HostCall.emulateCycle = 0 ∧
      post.count HostCall.emulateCycle = 0 ∧
      pre.count HostCall.displayFlip = 0 := by
  obtain ⟨k, hk⟩ := processEvents_trace hi events st.chip8
  rw [loopIter_run hi f events st hrom hp hq]
  by_cases hdf :
      (iterateStep f 10 (processEvents hi events st.chip8).1).draw_flag = true
  · rw [if_pos hdf]
    refine ⟨(processEvents hi events st.chip8).2.1,
      [HostCall.screenFill, HostCall.drawDisplayCall, HostCall.displayFlip,
        HostCall.clockTick60], rfl, ?_, rfl, ?_⟩
    · rw [hk]; exact count_replicate_of_ne _ _ k (by decide)
    · rw [hk]; exact count_replicate_of_ne _ _ k (by decide)
  · rw [if_neg hdf]
    refine ⟨(processEvents hi events st.chip8).2.1, [HostCall.clockTick60],
      rfl, ?_, rfl, ?_⟩
    · rw [hk]; exact count_replicate_of_ne _ _ k (by decide)
    · rw [hk]; exact count_replicate_of_ne _ _ k (by decide)

theorem c4_witness :
    ∃ pre post,
      (loopIter (fun c => c) (fun c => .ok c) [] runSt).trace
        = pre ++ List.replicate 10 HostCall.emulateCycle ++ post ∧
      pre.count HostCall.emulateCycle = 0 ∧
      post.count HostCall.emulateCycle = 0 ∧
      pre.count HostCall.displayFlip = 0 :=
  c4_ten_cycles_before_display (fun c => c) (fun c => c) [] runSt rfl rfl rfl

/-- Claim C6: in every running iteration (ROM loaded, not paused, no quit
event), the host repaints the screen from the framebuffer exactly when the
draw-flag (as left by the 10 cycles) is true, clears the draw-flag after
consuming the frame, and leaves the rendered screen unchanged when the
draw-flag is false; the trace contains a display flip exactly when the flag
was true. -/
theorem c6_draw_flag_gates_repaint (hi f : Chip8 → Chip8)
    (events : List PgEvent) (st : HostState)
    (hrom : st.rom_loaded = true) (hp : st.paused = false)
    (hq : hasQuit events = false) :
    ∃ st2, (loopIter hi (fun c => .ok (f c)) events st).out = .ok st2 ∧
      st2.screen =
        (if (iterateStep f 10 (processEvents hi events st.chip8).1).draw_flag then
          drawDisplay (iterateStep f 10 (processEvents hi events st.chip8).1).display
            blackScreen
         else st.screen) ∧
      st2.chip8.draw_flag = false ∧
      (loopIter hi (fun c => .ok (f c)) events st).trace.count HostCall.displayFlip
        = (if (iterateStep f 10 (processEvents hi events st.chip8).1).draw_flag
           then 1 else 0) := by
  obtain ⟨k, hk⟩ := processEvents_trace hi events st.chip8
  rw [loopIter_run hi f events st hrom hp hq]
  by_cases hdf :
      (iterateStep f 10 (processEvents hi events st.chip8).1).draw_flag = true
  · rw [if_pos hdf]
    refine ⟨_, rfl, ?_, rfl, ?_⟩
    · rw [if_pos hdf]
    · rw [if_pos hdf]
      dsimp only
      rw [List.count_append, List.count_append, hk,
        count_replicate_of_ne _ _ k (by decide)]
      rfl
  · rw [if_neg hdf]
    refine ⟨_, rfl, ?_, ?_, ?_⟩
    · rw [if_neg hdf]
    · simp only [Bool.not_eq_true] at hdf
      exact hdf
    · rw [if_neg hdf]
      dsimp only
      rw [List.count_append, List.count_append, hk,
        count_replicate_of_ne _ _ k (by decide)]
      rfl

theorem c6_witness :
    ∃ st2, (loopIter (fun c => c) (fun c => .ok c) [] runSt).out = .ok st2 ∧
      st2.screen =
        (if (iterateStep (fun c => c) 10
              (processEvents (fun c => c) [] runSt.chip8).1).draw_flag then
          drawDisplay (iterateStep (fun c => c) 10
              (processEvents (fun c => c) [] runSt.chip8).1).display blackScreen
         else runSt.screen) ∧
      st2.chip8.draw_flag = false ∧
      (loopIter (fun c => c) (fun c => .ok c) [] runSt).trace.count
          HostCall.displayFlip
        = (if (iterateStep (fun c => c) 10
              (processEvents (fun c => c) [] runSt.chip8).1).draw_flag
           then 1 else 0) :=
  c6_draw_flag_gates_repaint (fun c => c) (fun c => c) [] runSt rfl rfl rfl

/-- Claim C9: whenever the emulator is paused or no ROM is loaded, an
iteration of the emulation loop executes no interpreter cycle, advances no
timer, polls no input, and leaves the whole interpreter state and the
rendered screen unchanged. -/
theorem c9_idle_iteration_inert (hi : Chip8 → Chip8)
    (step : Chip8 → Except EngineError Chip8)
    (events : List PgEvent) (st : HostState)
    (h : st.rom_loaded = false ∨ st.paused = true) :
    ∃ st2, (loopIter hi step events st).out = .ok st2 ∧
      st2.chip8 = st.chip8 ∧
      st2.screen = st.screen ∧
      (loopIter hi step events st).trace.count HostCall.emulateCycle = 0 ∧
      (loopIter hi step events st).trace.count HostCall.tickTimers = 0 ∧
      (loopIter hi step events st).trace.count HostCall.handleInput = 0 := by
  have hcond : (st.rom_loaded && !st.paused) = false := by
    cases h with
    | inl h1 => rw [h1]; rfl
    | inr h1 => rw [h1]; simp
  rw [loopIter, hcond]
  by_cases hq2 : hasQuit events = true
  · rw [if_neg (by simp), if_pos hq2]
    exact ⟨quitEmulatorOp st, rfl, rfl, rfl, rfl, rfl, rfl⟩
  · rw [if_neg (by simp), if_neg hq2]
    exact ⟨st, rfl, rfl, rfl, rfl, rfl, rfl⟩

theorem c9_witness :
    ∃ st2, (loopIter (fun c => c) (fun c => .ok c) [] initialHost).out = .ok st2 ∧
      st2.chip8 = initialHost.chip8 ∧
      st2.screen = initialHost.screen ∧
      (loopIter (fun c => c) (fun c => .ok c) [] initialHost).trace.count
        HostCall.emulateCycle = 0 ∧
      (loopIter (fun c => c) (fun c => .ok c) [] initialHost).trace.count
        HostCall.tickTimers = 0 ∧
      (loopIter (fun c => c) (fun c => .ok c) [] initialHost).trace.count
        HostCall.handleInput = 0 :=
  c9_idle_iteration_inert (fun c => c) (fun c => .ok c) [] initialHost
    (Or.inl rfl)

/-- Claim C2: load-time errors are caught by the host with an error dialog,
but a step-time engine error (here `IllegalOpcode`) raised by a core cycle
propagates out of `emulation_loop` uncaught — the iteration ends
exceptionally, no error dialog is shown — while the loading path does show
the dialog for a too-large ROM. -/
theorem c2_step_error_uncaught :
    (loopIter (fun c => c) (fun _ => .error EngineError.illegalOpcode) [] runSt).out
      = .error EngineError.illegalOpcode ∧
    (loopIter (fun c => c) (fun _ => .error EngineError.illegalOpcode) [] runSt).trace.count
      HostCall.showErrorDialog = 0 ∧
    (hostLoadRom (some (List.replicate 3585 1)) runSt).2 = [HostCall.showErrorDialog] := by
  have herr : Chip8.init.load_rom (List.replicate 3585 1) = .error .romTooLarge := by
    rw [Chip8.load_rom, if_pos (by rw [List.length_replicate]; omega)]
  refine ⟨rfl, rfl, ?_⟩
  simp only [hostLoadRom, herr]

/-- Claim C8 counterexample: the host-side Reset operation — available while
the emulation thread keeps running — writes the interpreter's program
counter (0x210 before, 0x200 after), so the framebuffer and key table are
not the only interpreter structures the host writes outside a full load. -/
theorem c8_counterexample :
    (applyHostOp HostOp.resetOp resetProbeSt).chip8.pc ≠ resetProbeSt.chip8.pc ∧
    resetProbeSt.chip8.pc = 0x210 ∧
    (applyHostOp HostOp.resetOp resetProbeSt).chip8.pc = 0x200 := by
  exact ⟨by decide, rfl, rfl⟩

/-- Claim C8 (amended): every host-side operation other than a full load and
the Reset button leaves the interpreter state entirely unchanged, and even
Reset leaves the memory array and the key table unchanged — so outside
load/reset the host touches only the screen and its own flags. -/
theorem c8_host_ops_leave_core (op : HostOp) (st : HostState)
    (h1 : ∀ r, op ≠ HostOp.loadRomOp r) (h2 : op ≠ HostOp.resetOp) :
    (applyHostOp op st).chip8 = st.chip8 ∧
    (applyHostOp HostOp.resetOp st).chip8.memory = st.chip8.memory ∧
    (applyHostOp HostOp.resetOp st).chip8.keys = st.chip8.keys := by
  refine ⟨?_, ?_, ?_⟩
  · cases op with
    | loadRomOp r => exact absurd rfl (h1 r)
    | resetOp => exact absurd rfl h2
    | togglePauseOp => rfl
    | drawDisplayOp => rfl
    | showControlsOp => rfl
    | showAboutOp => rfl
    | quitOp => rfl
  · show (hostReset st).chip8.memory = st.chip8.memory
    rw [hostReset]
    split <;> rfl
  · show (hostReset st).chip8.keys = st.chip8.keys
    rw [hostReset]
    split <;> rfl

theorem c8_witness :
    (applyHostOp HostOp.togglePauseOp runSt).chip8 = runSt.chip8 ∧
    (applyHostOp HostOp.resetOp runSt).chip8.memory = runSt.chip8.memory ∧
    (applyHostOp HostOp.resetOp runSt).chip8.keys = runSt.chip8.keys :=
  c8_host_ops_leave_core HostOp.togglePauseOp runSt
    (fun r h => HostOp.noConfusion h) (fun h => HostOp.noConfusion h)
